import Mathlib

/-!
Verification development for the day-quality-tracker persistent log store
and configuration-range engine.

The repository carries two generations of the log store side by side:
the current package module `dqt/dqt_json.py` (class `DQTJSON`, used by
`main.py` via `dqt/tracker.py`) and the legacy top-level module
`dqt_json.py` (used by `day_quality_tracker.py`).  Both are embedded here
because the claims cite both.

Conventions of the embedding:
- JSON numbers are modelled as rationals; Python's `float(v)` coercion of a
  JSON number is modelled as the identity on the rational value.
- Python dicts are modelled as association lists in insertion order
  (`List (String × _)`), which is how the code iterates them.
- Exceptions are modelled with `Except`, or, for the mutating store
  operations, as a result pair of the post-state and an optional error;
  in the source every `raise` happens before any mutation of that call,
  so the post-state on the error path is the input state.
- The on-disk JSON file is modelled by its parsed contents.
-/

namespace DQT

/-- One normalized log entry: a nullable numeric rating and a memory string
(`dqt/dqt_json.py`, docstring of `DQTJSON` and `_validate_and_normalize_logs`). -/
structure Entry where
  rating : Option ℚ
  memory : String
deriving DecidableEq, Repr

/-- A raw value a date key maps to in the deserialized JSON file:
a bare number (legacy scalar format), a JSON object with optional
`rating` (possibly null) and `memory` slots, or anything else. -/
inductive RawVal where
  | num (x : ℚ)
  | obj (ratingSlot : Option (Option ℚ)) (memorySlot : Option String)
  | other
deriving DecidableEq, Repr

/-- Errors raised during load/validation of the log file. -/
inductive NormError where
  | parseFailure (date : String)
  | dateOlder (date prev : String)
  | dateRepeated (prev : String)
  | ratingKeyMissing (date : String)
  | ratingNotNumeric (date : String)
  | memoryKeyMissing (date : String)
  | invalidFormat (date : String)
deriving DecidableEq, Repr

/-! ### Date parsing: `datetime.strptime(s, "%Y-%m-%d")`

The default `date_format` of both trackers is `%Y-%m-%d`.  CPython's
`strptime` matches `%Y` against exactly four digits, `%m` against one or
two digits in 1..12, `%d` against one or two digits in 1..31, and the
`datetime` constructor then rejects days past the month's length and
years outside 1..9999.  A failed parse raises `ValueError`. -/

/-- Value of a decimal digit character, `none` for a non-digit. -/
def digitVal (c : Char) : Option Nat :=
  if '0' ≤ c ∧ c ≤ '9' then some (c.toNat - '0'.toNat) else none

/-- Parse a non-empty all-digit character list as a decimal number. -/
def parseNatDigits : List Char → Option Nat
  | [] => none
  | cs => go cs 0
where
  go : List Char → Nat → Option Nat
    | [], acc => some acc
    | c :: rest, acc =>
      match digitVal c with
      | none => none
      | some d => go rest (acc * 10 + d)

/-- Split a character list on the '-' separator, like `str.split('-')`. -/
def splitDash : List Char → List (List Char)
  | [] => [[]]
  | c :: rest =>
    match splitDash rest with
    | [] => if c = '-' then [[], []] else [[c]]
    | h :: t => if c = '-' then [] :: h :: t else (c :: h) :: t

/-- Gregorian leap-year test, as in Python's `calendar`/`datetime`. -/
def isLeap (y : Nat) : Bool :=
  (y % 4 == 0 && y % 100 != 0) || y % 400 == 0

/-- Number of days in a month of a given year. -/
def daysInMonth (y m : Nat) : Nat :=
  if m = 2 then (if isLeap y then 29 else 28)
  else if m = 4 ∨ m = 6 ∨ m = 9 ∨ m = 11 then 30
  else 31

/-- Days in the months of year `y` strictly before month `m`. -/
def daysBeforeMonth (y m : Nat) : Nat :=
  ((List.range (m - 1)).map (fun i => daysInMonth y (i + 1))).sum

/-- Day ordinal of a proleptic Gregorian date, as in
`datetime.date.toordinal`; differences of ordinals are the `.days`
of `datetime` subtraction. -/
def dayOrdinal (y m d : Nat) : Nat :=
  365 * (y - 1) + (y - 1) / 4 - (y - 1) / 100 + (y - 1) / 400
    + daysBeforeMonth y m + d

/-- Parsed calendar date. -/
structure Date where
  year : Nat
  month : Nat
  day : Nat
deriving DecidableEq, Repr

/-- Day ordinal of a parsed date. -/
def Date.ord (d : Date) : Nat := dayOrdinal d.year d.month d.day

/-- `datetime.strptime(s, "%Y-%m-%d")`, returning `none` where Python
raises `ValueError`. -/
def parseDate (s : String) : Option Date :=
  match splitDash s.toList with
  | [ys, ms, ds] =>
    match parseNatDigits ys, parseNatDigits ms, parseNatDigits ds with
    | some y, some m, some d =>
      if ys.length = 4 ∧ 1 ≤ y ∧
          ms.length ≤ 2 ∧ 1 ≤ m ∧ m ≤ 12 ∧
          ds.length ≤ 2 ∧ 1 ≤ d ∧ d ≤ daysInMonth y m then
        some ⟨y, m, d⟩
      else none
    | _, _, _ => none
  | _ => none

/-! ### The date-order validation shared by both normalizers

Both `DQTJSON._validate_and_normalize_logs` (current) and
`DQTJSON._load_json` (legacy) run, for every key after the first:
`diff = (strptime(date) - strptime(prev_date)).days`; `diff < 0` raises
the "older than previous" `ValueError`, `diff == 0` the "repeated"
`ValueError`. -/

/-- Date-order check for one iteration of the validation loop.
`prev` is the previously iterated key (`None` on the first iteration). -/
def checkDates (prev : Option String) (date : String) : Except NormError Unit :=
  match prev with
  | none => .ok ()
  | some p =>
    match parseDate p with
    | none => .error (.parseFailure p)
    | some pp =>
      match parseDate date with
      | none => .error (.parseFailure date)
      | some pd =>
        if pd.ord < pp.ord then .error (.dateOlder date p)
        else if pd.ord = pp.ord then .error (.dateRepeated p)
        else .ok ()

/-! ### Current normalizer: `dqt/dqt_json.py`, `_validate_and_normalize_logs` -/

/-- Per-entry shape dispatch of the current normalizer: only dict values
are accepted; a missing `rating` key is autofilled with null (or raises,
per the `autofill_json` flag), a missing `memory` key is autofilled with
the empty string (or raises); each autofill sets the `updated` flag.
Returns the normalized entry and its contribution to `updated`. -/
def normEntryNew (autofill : Bool) (date : String) (v : RawVal) :
    Except NormError (Entry × Bool) :=
  match v with
  | .obj ratingSlot memorySlot =>
    match ratingSlot with
    | none =>
      if autofill then
        match memorySlot with
        | none => .ok (⟨none, ""⟩, true)
        | some m => .ok (⟨none, m⟩, true)
      else .error (.ratingKeyMissing date)
    | some r =>
      match memorySlot with
      | none =>
        if autofill then .ok (⟨r, ""⟩, true)
        else .error (.memoryKeyMissing date)
      | some m => .ok (⟨r, m⟩, false)
  | _ => .error (.invalidFormat date)

/-- The validation loop of `_validate_and_normalize_logs`, threading the
previously iterated date key.  Returns the validated mapping and the
`updated` flag. -/
def normLoopNew (autofill : Bool) :
    Option String → List (String × RawVal) →
    Except NormError (List (String × Entry) × Bool)
  | _, [] => .ok ([], false)
  | prev, (date, v) :: rest =>
    match checkDates prev date with
    | .error e => .error e
    | .ok _ =>
      match normEntryNew autofill date v with
      | .error e => .error e
      | .ok (entry, u1) =>
        match normLoopNew autofill (some date) rest with
        | .error e => .error e
        | .ok (tail, u2) => .ok ((date, entry) :: tail, u1 || u2)

/-- `DQTJSON._validate_and_normalize_logs` of `dqt/dqt_json.py`
(minus the final conditional rewrite, modelled in `loadJsonNew`). -/
def validateAndNormalizeLogs (autofill : Bool)
    (contents : List (String × RawVal)) :
    Except NormError (List (String × Entry) × Bool) :=
  normLoopNew autofill none contents

/-- `DQTJSON._load_json` of `dqt/dqt_json.py`: empty raw contents load as
the empty mapping with no rewrite; otherwise the contents are validated
and, when the `updated` flag is set, the validated mapping is written back
to the file exactly once.  The second component lists the file writes
performed. -/
def loadJsonNew (autofill : Bool) (raw : List (String × RawVal)) :
    Except NormError (List (String × Entry) × List (List (String × Entry))) :=
  if raw = [] then .ok ([], [])
  else
    match validateAndNormalizeLogs autofill raw with
    | .error e => .error e
    | .ok (v, u) => .ok (v, if u then [v] else [])

/-! ### Legacy normalizer: top-level `dqt_json.py`, `_load_json` -/

/-- Per-entry dispatch of the legacy `_load_json`: a bare number is
upgraded to a full entry with empty memory and sets the `updated` flag;
a dict must carry a `rating` key with a numeric value (Python's
`float(None)` raises `TypeError`), a missing `memory` entry is autofilled
with the empty string and sets `updated`; anything else is invalid. -/
def normEntryOld (date : String) (v : RawVal) :
    Except NormError (Entry × Bool) :=
  match v with
  | .num x => .ok (⟨some x, ""⟩, true)
  | .obj ratingSlot memorySlot =>
    match ratingSlot with
    | none => .error (.ratingKeyMissing date)
    | some none => .error (.ratingNotNumeric date)
    | some (some x) => .ok (⟨some x, memorySlot.getD ""⟩, memorySlot.isNone)
  | .other => .error (.invalidFormat date)

/-- The validation loop of the legacy `_load_json`. -/
def normLoopOld :
    Option String → List (String × RawVal) →
    Except NormError (List (String × Entry) × Bool)
  | _, [] => .ok ([], false)
  | prev, (date, v) :: rest =>
    match checkDates prev date with
    | .error e => .error e
    | .ok _ =>
      match normEntryOld date v with
      | .error e => .error e
      | .ok (entry, u1) =>
        match normLoopOld (some date) rest with
        | .error e => .error e
        | .ok (tail, u2) => .ok ((date, entry) :: tail, u1 || u2)

/-- Legacy `DQTJSON._load_json` of top-level `dqt_json.py` on non-empty raw
contents: validate, then rewrite the file once when any fix was applied.
The second component lists the file writes performed. -/
def loadJsonOld (raw : List (String × RawVal)) :
    Except NormError (List (String × Entry) × List (List (String × Entry))) :=
  match normLoopOld none raw with
  | .error e => .error e
  | .ok (v, u) => .ok (v, if u then [v] else [])

/-- Serialization of a normalized mapping back to raw JSON, as performed
by `json.dump`: every entry becomes an object with both keys present. -/
def toRaw (v : List (String × Entry)) : List (String × RawVal) :=
  v.map (fun p => (p.1, .obj (some p.2.rating) (some p.2.memory)))

/-- The previously-iterated key after walking `xs` starting from `prev`:
the last key of `xs`, or `prev` when `xs` is empty. -/
def prevAfter (prev : Option String) (xs : List (String × RawVal)) :
    Option String :=
  xs.foldl (fun _ q => some q.1) prev

/-! ### The log store: `dqt/dqt_json.py`, class `DQTJSON`

State is the in-memory mapping `self.logs` plus the parsed contents of the
backing file.  Mutating operations return the post-state and an optional
raised error; every `raise` in the source precedes any mutation, so on the
error path the post-state equals the input state. -/

/-- Errors raised by the mutating store operations. -/
inductive DqtErr where
  | duplicateKey (date : String)
  | keyNotFound (date : String)
  | missingDate
deriving DecidableEq, Repr

/-- State of a `DQTJSON` instance: in-memory logs and the parsed contents
of the backing JSON file. -/
structure StoreState where
  logs : List (String × Entry)
  file : List (String × Entry)
deriving DecidableEq, Repr

/-- `DQTJSON._dump`: given the current file contents and the mapping to
dump, return the new file contents and whether the data-loss warning
fired.  The write is aborted (file left as is, warning printed) exactly
when the file holds data and the mapping to dump is empty. -/
def dumpFile (fileNow logsToDump : List (String × Entry)) :
    List (String × Entry) × Bool :=
  if !fileNow.isEmpty && logsToDump.isEmpty then (fileNow, true)
  else (logsToDump, false)

/-- `DQTJSON.add`: raise `KeyError` when the date is already present,
otherwise append the new entry and dump the full mapping. -/
def addRun (st : StoreState) (date : String) (rating : Option ℚ)
    (memory : String) : StoreState × Option DqtErr :=
  if (st.logs.lookup date).isSome then (st, some (.duplicateKey date))
  else
    let logs := st.logs ++ [(date, ⟨rating, memory⟩)]
    (⟨logs, (dumpFile st.file logs).1⟩, none)

/-- `DQTJSON.update`: the `rating` and `memory` parameters default to the
`_UNSET` sentinel, modelled as the outer `Option` (`none` = not supplied);
a supplied rating may itself be null.  `date` defaults to `None`.
With `date` unset the call raises `ValueError` if either field was
supplied and silently returns otherwise; with `date` set it raises
`KeyError` when absent, else overwrites exactly the supplied fields and
dumps the full mapping. -/
def updateRun (st : StoreState) (date : Option String)
    (rating : Option (Option ℚ)) (memory : Option String) :
    StoreState × Option DqtErr :=
  match date with
  | none =>
    if rating.isSome || memory.isSome then (st, some .missingDate)
    else (st, none)
  | some d =>
    if (st.logs.lookup d).isNone then (st, some (.keyNotFound d))
    else
      let logs := st.logs.map (fun p =>
        if p.1 == d then (p.1, ⟨rating.getD p.2.rating, memory.getD p.2.memory⟩)
        else p)
      (⟨logs, (dumpFile st.file logs).1⟩, none)

/-! ### Backup service: `dqt/dqt_json.py`,
`_create_json_copy` and `_start_file_backup_process`

The file system is modelled as an association list from paths to byte
contents. -/

/-- Look up a file's contents; missing files read as `""` (the source
copies an existing log file, so the default is never observed in the
scenarios of interest). -/
def fsRead (fs : List (String × String)) (path : String) : String :=
  (fs.lookup path).getD ""

/-- Write a file, replacing an existing entry for the path. -/
def fsWrite (fs : List (String × String)) (path contents : String) :
    List (String × String) :=
  if (fs.lookup path).isSome then
    fs.map (fun p => if p.1 == path then (p.1, contents) else p)
  else fs ++ [(path, contents)]

/-- `DQTJSON._create_json_copy`: raise `FileExistsError` when the target
exists and `exist_ok` is false; otherwise byte-copy the backing file to
the target (`shutil.copy2`) and return the destination path. -/
def createJsonCopy (fs : List (String × String)) (srcPath targetPath : String)
    (existOk : Bool) : Except Unit (List (String × String) × String) :=
  if !existOk && (fs.lookup targetPath).isSome then .error ()
  else .ok (fsWrite fs targetPath (fsRead fs srcPath), targetPath)

/-- Result of one iteration of the backup prompting loop:
success carries the `dst` variable returned to the caller. -/
inductive BackupResult where
  | success (dst : Option String)
  | retry
deriving DecidableEq, Repr

/-- One iteration of `DQTJSON._start_file_backup_process`, after the
caller confirmed the chosen destination: `dst` starts as `None`; the
first copy attempt uses `exist_ok=False`; on `FileExistsError`, when the
user confirms the overwrite the copy is redone with `exist_ok=True` and
`(True, dst)` is returned with `dst` still `None`, otherwise the loop
continues (retry). -/
def startFileBackupProcess (fs : List (String × String))
    (srcPath chosenPath : String) (confirmOverwrite : Bool) :
    List (String × String) × BackupResult :=
  match createJsonCopy fs srcPath chosenPath false with
  | .ok (fs', p) => (fs', .success (some p))
  | .error _ =>
    if confirmOverwrite then
      match createJsonCopy fs srcPath chosenPath true with
      | .ok (fs', _) => (fs', .success none)
      | .error _ => (fs, .retry)
    else (fs, .retry)

/-! ### Settings engine, current generation: `dqt/json_manager.py`

`JsonManager.settings` maps category names to maps of setting names to
objects with a `value` and a `ranges` list, exactly as stored in
`settings.json`.  `set_value` assigns only the `value` slot; `ranges`
are whatever the file holds and are never recomputed. -/

/-- A JSON scalar as stored in the settings file. -/
inductive SVal where
  | i (n : Int)
  | s (v : String)
  | b (v : Bool)
  | null
deriving DecidableEq, Repr

/-- One setting: its current value and its stored ranges list. -/
structure SettingEntry where
  value : SVal
  ranges : List SVal
deriving DecidableEq, Repr

/-- The loaded settings mapping: category → setting name → entry. -/
def Settings : Type := List (String × List (String × SettingEntry))

/-- `JsonManager.get_range_with_key`: the stored `ranges` for the pair, or
`[]` (with a printed message) when the pair is unknown. -/
def getRangeWithKey (settings : Settings) (cat key : String) : List SVal :=
  match (settings.lookup cat).bind (fun sub => sub.lookup key) with
  | some entry => entry.ranges
  | none => []

/-- `JsonManager.set_value`: assign the `value` slot of the pair; an
unknown pair only prints a message and changes nothing. -/
def setValue (settings : Settings) (cat key : String) (v : SVal) : Settings :=
  settings.map (fun c =>
    if c.1 == cat then
      (c.1, c.2.map (fun k =>
        if k.1 == key then (k.1, { k.2 with value := v }) else k))
    else c)

/-! ### Settings engine, computed-range generation:
`dqt/iterable_settings.py`, class `IterableSettings`

Only the tracker subdict's two interdependent rating ranges are relevant
to the claims; `min_rating`'s range is computed from the current
`max_rating` value and vice versa on every `load_current_config`. -/

/-- The `min_rating`/`max_rating` values of the tracker config subdict
(`CONFIGS['tracker']` in `settings.py`), the only values these two
computed ranges consult. -/
structure TrackerConfig where
  min_rating : Int
  max_rating : Int
deriving DecidableEq, Repr

/-- `IterableSettings.register_range` with no special values: the list
`min, min+step, ...` while the current value stays at most `max`
(the source callers always pass a positive step). -/
def registerRange (lo hi : Int) (step : Nat) : List Int :=
  if lo ≤ hi then
    (List.range ((hi - lo).toNat / step + 1)).map
      (fun i : Nat => lo + ((step * i : Nat) : Int))
  else []

/-- An `IterableSettings` instance for the tracker subdict: the config it
aliases plus the two computed rating ranges. -/
structure IterState where
  config : TrackerConfig
  min_rating_range : List Int
  max_rating_range : List Int
deriving DecidableEq, Repr

/-- `IterableSettings.load_current_config` (tracker branch, rating
ranges): `min_rating`'s legal range is `register_range(1,
config['max_rating'] - 1)` and `max_rating`'s is
`register_range(config['min_rating'], 20)`. -/
def loadCurrentConfig (c : TrackerConfig) : IterState :=
  ⟨c, registerRange 1 (c.max_rating - 1) 1, registerRange c.min_rating 20 1⟩

/-- `IterableSettings.replace_config_value` restricted to the two rating
keys: update the aliased config value (in memory and, via the line
rewriter, in `settings.py`), then reload the config, which recomputes the
dependent ranges. -/
def replaceConfigValue (st : IterState) (key : String) (v : Int) : IterState :=
  let c := st.config
  let c' :=
    if key == "max_rating" then { c with max_rating := v }
    else if key == "min_rating" then { c with min_rating := v }
    else c
  loadCurrentConfig c'

/-! ### Concrete fixtures used to instantiate the theorems -/

/-- A small store in the state reached after a clean load: two
chronologically increasing entries, file in sync with memory. -/
def sampleStore : StoreState :=
  ⟨[("2024-01-01", ⟨some 5, "hello"⟩), ("2024-01-02", ⟨none, "w"⟩)],
   [("2024-01-01", ⟨some 5, "hello"⟩), ("2024-01-02", ⟨none, "w"⟩)]⟩

/-- A file system holding the backing log file and an existing file at the
chosen backup destination. -/
def sampleFS : List (String × String) :=
  [("data/dq_logs.json", "LOGS"), ("backup.json", "OLD")]

/-- Loaded `settings.json` contents for the two rating settings, with the
ranges the file ships for the default values (`min_rating` 1,
`max_rating` 20). -/
def sampleSettings : Settings :=
  [("tracker",
    [("min_rating", ⟨.i 1, (registerRange 1 19 1).map .i⟩),
     ("max_rating", ⟨.i 20, (registerRange 1 20 1).map .i⟩)])]

/-! ### Helper lemmas -/

/-- Renormalizing a mapping produced by a successful run of the current
normalizer succeeds, reproduces the mapping, and needs no fix. -/
lemma normLoopNew_reload (a : Bool) :
    ∀ (xs : List (String × RawVal)) (prev : Option String)
      (v : List (String × Entry)) (u : Bool),
    normLoopNew a prev xs = .ok (v, u) →
    normLoopNew a prev (toRaw v) = .ok (v, false) := by
  intro xs
  induction xs with
  | nil =>
    intro prev v u h
    simp only [normLoopNew, Except.ok.injEq, Prod.mk.injEq] at h
    obtain ⟨rfl, rfl⟩ := h
    simp [toRaw, normLoopNew]
  | cons hd tl ih =>
    intro prev v u h
    obtain ⟨date, rv⟩ := hd
    cases hc : checkDates prev date with
    | error e => simp [normLoopNew, hc] at h
    | ok _ =>
      cases hn : normEntryNew a date rv with
      | error e => simp [normLoopNew, hc, hn] at h
      | ok p =>
        obtain ⟨ent, u1⟩ := p
        cases hrest : normLoopNew a (some date) tl with
        | error e => simp [normLoopNew, hc, hn, hrest] at h
        | ok q =>
          obtain ⟨tail, u2⟩ := q
          simp only [normLoopNew, hc, hn, hrest, Except.ok.injEq,
            Prod.mk.injEq] at h
          obtain ⟨hv, -⟩ := h
          subst hv
          have htail := ih (some date) tail u2 hrest
          simp only [toRaw, List.map_cons] at htail ⊢
          simp [normLoopNew, hc, normEntryNew, htail]

/-- A successfully validated prefix does not mask a failure further on:
if the loop succeeds on `xs` and fails on `ys` continued from the last
key of `xs`, it fails on `xs ++ ys` with the same error. -/
lemma normLoopNew_append_error (a : Bool) :
    ∀ (xs : List (String × RawVal)) (prev : Option String)
      (v : List (String × Entry)) (u : Bool)
      (ys : List (String × RawVal)) (e : NormError),
    normLoopNew a prev xs = .ok (v, u) →
    normLoopNew a (prevAfter prev xs) ys = .error e →
    normLoopNew a prev (xs ++ ys) = .error e := by
  intro xs
  induction xs with
  | nil =>
    intro prev v u ys e _ h2
    simpa [prevAfter] using h2
  | cons hd tl ih =>
    intro prev v u ys e h1 h2
    obtain ⟨date, rv⟩ := hd
    cases hc : checkDates prev date with
    | error e' => simp [normLoopNew, hc] at h1
    | ok _ =>
      cases hn : normEntryNew a date rv with
      | error e' => simp [normLoopNew, hc, hn] at h1
      | ok p =>
        obtain ⟨ent, u1⟩ := p
        cases hrest : normLoopNew a (some date) tl with
        | error e' => simp [normLoopNew, hc, hn, hrest] at h1
        | ok q =>
          obtain ⟨tail, u2⟩ := q
          have h2' : normLoopNew a (prevAfter (some date) tl) ys = .error e := by
            simpa [prevAfter] using h2
          have := ih (some date) tail u2 ys e hrest h2'
          simp [normLoopNew, hc, hn, this]

/-- The current normalizer rejects every mapping containing a bare
numeric scalar value. -/
lemma normLoopNew_scalar_error (a : Bool) :
    ∀ (xs : List (String × RawVal)) (prev : Option String)
      (d : String) (x : ℚ),
    (d, RawVal.num x) ∈ xs → ∃ e, normLoopNew a prev xs = .error e := by
  intro xs
  induction xs with
  | nil => intro prev d x h; simp at h
  | cons hd tl ih =>
    intro prev d x hmem
    obtain ⟨date, rv⟩ := hd
    cases hc : checkDates prev date with
    | error e => exact ⟨e, by simp [normLoopNew, hc]⟩
    | ok _ =>
      rcases List.mem_cons.mp hmem with heq | htl
      · have hdate : d = date := congrArg Prod.fst heq
        have hrv : RawVal.num x = rv := congrArg Prod.snd heq
        subst hdate
        subst hrv
        exact ⟨.invalidFormat d,
          by simp [normLoopNew, hc, normEntryNew]⟩
      · cases hn : normEntryNew a date rv with
        | error e => exact ⟨e, by simp [normLoopNew, hc, hn]⟩
        | ok p =>
          obtain ⟨ent, u1⟩ := p
          obtain ⟨e2, h2⟩ := ih (some date) d x htl
          exact ⟨e2, by simp [normLoopNew, hc, hn, h2]⟩

/-- In any successful run of the legacy normalizer, a bare scalar entry
comes out upgraded to a full entry with empty memory, and the `updated`
flag is set. -/
lemma normLoopOld_scalar_upgrade :
    ∀ (xs : List (String × RawVal)) (prev : Option String)
      (d : String) (x : ℚ) (v : List (String × Entry)) (u : Bool),
    (d, RawVal.num x) ∈ xs → normLoopOld prev xs = .ok (v, u) →
    (d, (⟨some x, ""⟩ : Entry)) ∈ v ∧ u = true := by
  intro xs
  induction xs with
  | nil => intro prev d x v u h; simp at h
  | cons hd tl ih =>
    intro prev d x v u hmem h
    obtain ⟨date, rv⟩ := hd
    cases hc : checkDates prev date with
    | error e => simp [normLoopOld, hc] at h
    | ok _ =>
      cases hn : normEntryOld date rv with
      | error e => simp [normLoopOld, hc, hn] at h
      | ok p =>
        obtain ⟨ent, u1⟩ := p
        cases hrest : normLoopOld (some date) tl with
        | error e => simp [normLoopOld, hc, hn, hrest] at h
        | ok q =>
          obtain ⟨tail, u2⟩ := q
          simp only [normLoopOld, hc, hn, hrest, Except.ok.injEq,
            Prod.mk.injEq] at h
          obtain ⟨hv, hu⟩ := h
          subst hv
          rcases List.mem_cons.mp hmem with heq | htl
          · have hdate : d = date := congrArg Prod.fst heq
            have hrv : RawVal.num x = rv := congrArg Prod.snd heq
            subst hdate
            subst hrv
            simp only [normEntryOld, Except.ok.injEq, Prod.mk.injEq] at hn
            obtain ⟨rfl, rfl⟩ := hn
            exact ⟨List.mem_cons_self _ _, by simp [← hu]⟩
          · obtain ⟨hmem2, hu2⟩ := ih (some date) d x tail u2 htl hrest
            exact ⟨List.mem_cons_of_mem _ hmem2, by simp [← hu, hu2]⟩

/-- Unfolding `List.lookup` over a cons cell. -/
lemma lookup_cons_pair {β : Type} (a k : String) (b : β)
    (t : List (String × β)) :
    List.lookup a ((k, b) :: t) = if a == k then some b else List.lookup a t := by
  cases h : a == k <;> simp [List.lookup, h]

/-- Looking up the updated key after an in-place entry update. -/
lemma lookup_map_entry_update (d : String) (f : Entry → Entry) :
    ∀ (logs : List (String × Entry)),
    (logs.map (fun p => if p.1 == d then (p.1, f p.2) else p)).lookup d
      = (logs.lookup d).map f := by
  intro logs
  induction logs with
  | nil => simp
  | cons p t ih =>
    obtain ⟨k, e⟩ := p
    by_cases h : k = d
    · subst h
      simp [List.map_cons, lookup_cons_pair]
    · simp only [beq_iff_eq] at ih
      simp [List.map_cons, lookup_cons_pair, h, Ne.symm h, ih]

/-- Looking up any other key after an in-place entry update. -/
lemma lookup_map_entry_update_ne (d d' : String) (hne : d' ≠ d)
    (f : Entry → Entry) :
    ∀ (logs : List (String × Entry)),
    (logs.map (fun p => if p.1 == d then (p.1, f p.2) else p)).lookup d'
      = logs.lookup d' := by
  intro logs
  induction logs with
  | nil => simp
  | cons p t ih =>
    obtain ⟨k, e⟩ := p
    by_cases h : k = d
    · subst h
      simp only [beq_iff_eq] at ih
      simp [List.map_cons, lookup_cons_pair, hne, ih]
    · by_cases h2 : d' = k
      · subst h2
        simp [List.map_cons, lookup_cons_pair, h]
      · simp only [beq_iff_eq] at ih
        simp [List.map_cons, lookup_cons_pair, h, h2, ih]

/-- The in-place update that touches no field is the identity. -/
lemma map_entry_update_id (d : String) :
    ∀ (logs : List (String × Entry)),
    logs.map (fun p =>
      if p.1 == d then (p.1, (⟨p.2.rating, p.2.memory⟩ : Entry)) else p)
      = logs := by
  intro logs
  have hfun : (fun p : String × Entry =>
      if p.1 == d then (p.1, (⟨p.2.rating, p.2.memory⟩ : Entry)) else p)
      = fun p => p := by
    funext p
    obtain ⟨k, e⟩ := p
    simp
  rw [hfun, List.map_id']

/-- Membership in a step-one `register_range` list is exactly membership
in the closed integer interval. -/
lemma mem_registerRange_one (lo hi x : Int) :
    x ∈ registerRange lo hi 1 ↔ lo ≤ x ∧ x ≤ hi := by
  unfold registerRange
  by_cases h : lo ≤ hi
  · rw [if_pos h, List.mem_map]
    have htn : ((hi - lo).toNat : Int) = hi - lo := Int.toNat_of_nonneg (by omega)
    constructor
    · rintro ⟨i, hmem, rfl⟩
      rw [List.mem_range] at hmem
      simp only [Nat.div_one] at hmem
      simp only [Nat.one_mul]
      omega
    · rintro ⟨h1, h2⟩
      have htx : ((x - lo).toNat : Int) = x - lo := Int.toNat_of_nonneg (by omega)
      refine ⟨(x - lo).toNat, ?_, ?_⟩
      · rw [List.mem_range]
        simp only [Nat.div_one]
        omega
      · simp only [Nat.one_mul]
        omega
  · rw [if_neg h]
    simp only [List.not_mem_nil, false_iff]
    omega


/-! ### Claim theorems -/

/-- C1, counterexample: the current normalizer
(`dqt/dqt_json.py`, `_validate_and_normalize_logs`) does not upgrade the
legacy file mapping "2024-01-01" to the bare scalar 15; it raises the
invalid-format `ValueError` instead of producing the upgraded entry. -/
theorem c1_counterexample :
    validateAndNormalizeLogs true [("2024-01-01", RawVal.num 15)]
      = .error (.invalidFormat "2024-01-01") ∧
    validateAndNormalizeLogs true [("2024-01-01", RawVal.num 15)]
      ≠ .ok ([("2024-01-01", ⟨some 15, ""⟩)], true) := by
  refine ⟨rfl, ?_⟩
  intro h
  rw [show validateAndNormalizeLogs true [("2024-01-01", RawVal.num 15)]
      = Except.error (NormError.invalidFormat "2024-01-01") from rfl] at h
  exact Except.noConfusion h

/-- C1, amended: for every raw mapping containing a bare numeric scalar,
the current normalizer fails the whole load (no upgrade), while the
legacy normalizer (top-level `dqt_json.py`, `_load_json`) upgrades that
entry to a full record with rating `float(value)` and empty memory, sets
the dirty flag, and rewrites the file exactly once. -/
theorem c1_amended_theorem (a : Bool) (contents : List (String × RawVal))
    (d : String) (x : ℚ)
    (hmem : (d, RawVal.num x) ∈ contents) :
    (∃ e, validateAndNormalizeLogs a contents = .error e) ∧
    (∀ v w, loadJsonOld contents = .ok (v, w) →
      (d, (⟨some x, ""⟩ : Entry)) ∈ v ∧ w = [v]) := by
  constructor
  · exact normLoopNew_scalar_error a contents none d x hmem
  · intro v w h
    unfold loadJsonOld at h
    cases hold : normLoopOld none contents with
    | error e =>
      rw [hold] at h
      exact Except.noConfusion h
    | ok p =>
      obtain ⟨v0, u0⟩ := p
      rw [hold] at h
      simp only [Except.ok.injEq, Prod.mk.injEq] at h
      obtain ⟨rfl, rfl⟩ := h
      obtain ⟨hm, hu⟩ := normLoopOld_scalar_upgrade contents none d x v0 u0 hmem hold
      subst hu
      exact ⟨hm, by simp⟩

/-- C1, witness at the legacy file of the claim. -/
theorem c1_witness :
    (∃ e, validateAndNormalizeLogs true [("2024-01-01", RawVal.num 15)]
      = .error e) ∧
    (∀ v w, loadJsonOld [("2024-01-01", RawVal.num 15)] = .ok (v, w) →
      ("2024-01-01", (⟨some 15, ""⟩ : Entry)) ∈ v ∧ w = [v]) :=
  c1_amended_theorem true [("2024-01-01", RawVal.num 15)] "2024-01-01" 15
    (by simp)

/-- C2: a dump aborts, leaving the file contents unchanged and surfacing
the warning, exactly when the file holds data and the mapping to write is
empty; a dump of a non-empty mapping fully overwrites the file with that
mapping. -/
theorem c2_theorem (fileNow logs : List (String × Entry)) :
    (fileNow ≠ [] → logs = [] → dumpFile fileNow logs = (fileNow, true)) ∧
    (logs ≠ [] → dumpFile fileNow logs = (logs, false)) := by
  constructor
  · intro h1 h2
    subst h2
    have hf : fileNow.isEmpty = false := by
      cases fileNow with
      | nil => exact absurd rfl h1
      | cons a t => rfl
    simp [dumpFile, hf]
  · intro h
    have hl : logs.isEmpty = false := by
      cases logs with
      | nil => exact absurd rfl h
      | cons a t => rfl
    simp [dumpFile, hl]

/-- C2, witness: the guard fires on a non-empty file with an empty
mapping, and a non-empty mapping overwrites an empty file. -/
theorem c2_witness :
    dumpFile [("2024-01-01", ⟨some 5, "m"⟩)] []
      = ([("2024-01-01", ⟨some 5, "m"⟩)], true) ∧
    dumpFile [] [("2024-01-01", ⟨some 5, "m"⟩)]
      = ([("2024-01-01", ⟨some 5, "m"⟩)], false) :=
  ⟨(c2_theorem [("2024-01-01", ⟨some 5, "m"⟩)] []).1 (by simp) rfl,
   (c2_theorem [] [("2024-01-01", ⟨some 5, "m"⟩)]).2 (by simp)⟩

/-- C3: continuing a validly ordered prefix with a key that parses
strictly earlier than the previously iterated key fails the load with the
"older than previous" error; a key parsing to exactly the same calendar
day fails it with the "repeated" error.  Both are raised errors, not
silent fixes. -/
theorem c3_theorem (a : Bool) (xs : List (String × RawVal)) (k d : String)
    (rv : RawVal) (rest : List (String × RawVal))
    (v : List (String × Entry)) (u : Bool) (pk pd : Date)
    (hok : validateAndNormalizeLogs a xs = .ok (v, u))
    (hlast : prevAfter none xs = some k)
    (hpk : parseDate k = some pk) (hpd : parseDate d = some pd) :
    (pd.ord < pk.ord →
      validateAndNormalizeLogs a (xs ++ (d, rv) :: rest)
        = .error (.dateOlder d k)) ∧
    (pd.ord = pk.ord →
      validateAndNormalizeLogs a (xs ++ (d, rv) :: rest)
        = .error (.dateRepeated k)) := by
  unfold validateAndNormalizeLogs at hok ⊢
  constructor
  · intro hlt
    have hc : checkDates (some k) d = .error (.dateOlder d k) := by
      simp [checkDates, hpk, hpd, hlt]
    have herr : normLoopNew a (prevAfter none xs) ((d, rv) :: rest)
        = .error (.dateOlder d k) := by
      rw [hlast]
      simp [normLoopNew, hc]
    exact normLoopNew_append_error a xs none v u _ _ hok herr
  · intro heq
    have hnlt : ¬ pd.ord < pk.ord := by omega
    have hc : checkDates (some k) d = .error (.dateRepeated k) := by
      simp [checkDates, hpk, hpd, hnlt, heq]
    have herr : normLoopNew a (prevAfter none xs) ((d, rv) :: rest)
        = .error (.dateRepeated k) := by
      rw [hlast]
      simp [normLoopNew, hc]
    exact normLoopNew_append_error a xs none v u _ _ hok herr

/-- C3, witness: the decreasing pair and a repeated calendar day (written
with a one-digit month, so both keys are distinct dict keys). -/
theorem c3_witness :
    validateAndNormalizeLogs true
      ([("2024-01-02", RawVal.obj (some (some 5)) (some ""))]
        ++ ("2024-01-01", RawVal.obj (some (some 3)) (some "")) :: [])
      = .error (.dateOlder "2024-01-01" "2024-01-02") ∧
    validateAndNormalizeLogs true
      ([("2024-01-02", RawVal.obj (some (some 5)) (some ""))]
        ++ ("2024-1-2", RawVal.obj (some (some 3)) (some "")) :: [])
      = .error (.dateRepeated "2024-01-02") :=
  ⟨(c3_theorem true [("2024-01-02", RawVal.obj (some (some 5)) (some ""))]
      "2024-01-02" "2024-01-01" (RawVal.obj (some (some 3)) (some "")) []
      [("2024-01-02", ⟨some 5, ""⟩)] false ⟨2024, 1, 2⟩ ⟨2024, 1, 1⟩
      (by rfl) (by rfl) (by rfl) (by rfl)).1 (by decide),
   (c3_theorem true [("2024-01-02", RawVal.obj (some (some 5)) (some ""))]
      "2024-01-02" "2024-1-2" (RawVal.obj (some (some 3)) (some "")) []
      [("2024-01-02", ⟨some 5, ""⟩)] false ⟨2024, 1, 2⟩ ⟨2024, 1, 2⟩
      (by rfl) (by rfl) (by rfl) (by rfl)).2 (by decide)⟩

/-- C4: adding a date already present always raises `DuplicateKeyError`
(a `KeyError` in the source), and the failed call leaves both the
in-memory mapping and the on-disk file unchanged. -/
theorem c4_theorem (st : StoreState) (d : String) (r : Option ℚ) (m : String)
    (hmem : (st.logs.lookup d).isSome = true) :
    addRun st d r m = (st, some (.duplicateKey d)) := by
  simp [addRun, hmem]

/-- C4, witness on the sample store. -/
theorem c4_witness :
    addRun sampleStore "2024-01-01" (some 7) "y"
      = (sampleStore, some (.duplicateKey "2024-01-01")) :=
  c4_theorem sampleStore "2024-01-01" (some 7) "y" (by rfl)

/-- C5: updating an absent date always raises `KeyNotFoundError` with the
state unchanged; updating a present date with only a rating sets exactly
that entry's rating, preserving its memory and every other entry, and
symmetrically for a memory-only update. -/
theorem c5_theorem (st : StoreState) (d : String) (rx : Option ℚ)
    (mx : String) :
    (st.logs.lookup d = none →
      ∀ (r : Option (Option ℚ)) (m : Option String),
        updateRun st (some d) r m = (st, some (.keyNotFound d))) ∧
    ((st.logs.lookup d).isSome = true →
      (updateRun st (some d) (some rx) none).2 = none ∧
      (updateRun st (some d) (some rx) none).1.logs.lookup d
        = (st.logs.lookup d).map (fun e => ⟨rx, e.memory⟩) ∧
      (∀ dd, dd ≠ d →
        (updateRun st (some d) (some rx) none).1.logs.lookup dd
          = st.logs.lookup dd)) ∧
    ((st.logs.lookup d).isSome = true →
      (updateRun st (some d) none (some mx)).2 = none ∧
      (updateRun st (some d) none (some mx)).1.logs.lookup d
        = (st.logs.lookup d).map (fun e => ⟨e.rating, mx⟩) ∧
      (∀ dd, dd ≠ d →
        (updateRun st (some d) none (some mx)).1.logs.lookup dd
          = st.logs.lookup dd)) := by
  refine ⟨?_, ?_, ?_⟩
  · intro hnone r m
    simp [updateRun, hnone]
  · intro hsome
    have hn : (st.logs.lookup d).isNone = false := by
      cases ho : st.logs.lookup d with
      | none => rw [ho] at hsome; exact Bool.noConfusion hsome
      | some e => rfl
    refine ⟨by simp [updateRun, hn], ?_, ?_⟩
    · simp only [updateRun, hn, Bool.false_eq_true, if_false,
        Option.getD_some, Option.getD_none]
      exact lookup_map_entry_update d (fun e => ⟨rx, e.memory⟩) st.logs
    · intro dd hdd
      simp only [updateRun, hn, Bool.false_eq_true, if_false,
        Option.getD_some, Option.getD_none]
      exact lookup_map_entry_update_ne d dd hdd (fun e => ⟨rx, e.memory⟩)
        st.logs
  · intro hsome
    have hn : (st.logs.lookup d).isNone = false := by
      cases ho : st.logs.lookup d with
      | none => rw [ho] at hsome; exact Bool.noConfusion hsome
      | some e => rfl
    refine ⟨by simp [updateRun, hn], ?_, ?_⟩
    · simp only [updateRun, hn, Bool.false_eq_true, if_false,
        Option.getD_some, Option.getD_none]
      exact lookup_map_entry_update d (fun e => ⟨e.rating, mx⟩) st.logs
    · intro dd hdd
      simp only [updateRun, hn, Bool.false_eq_true, if_false,
        Option.getD_some, Option.getD_none]
      exact lookup_map_entry_update_ne d dd hdd (fun e => ⟨e.rating, mx⟩)
        st.logs

/-- C5, witness on the sample store: absent-date failure and a rating-only
update of a present date. -/
theorem c5_witness :
    updateRun sampleStore (some "2024-01-03") (some (some 7)) none
      = (sampleStore, some (.keyNotFound "2024-01-03")) ∧
    (updateRun sampleStore (some "2024-01-01") (some (some 7)) none).2
      = none ∧
    (updateRun sampleStore (some "2024-01-01") (some (some 7)) none).1.logs.lookup
        "2024-01-01"
      = (sampleStore.logs.lookup "2024-01-01").map (fun e => ⟨some 7, e.memory⟩) ∧
    (∀ dd, dd ≠ "2024-01-01" →
      (updateRun sampleStore (some "2024-01-01") (some (some 7)) none).1.logs.lookup dd
        = sampleStore.logs.lookup dd) :=
  ⟨(c5_theorem sampleStore "2024-01-03" (some 7) "").1 (by rfl)
      (some (some 7)) none,
   (c5_theorem sampleStore "2024-01-01" (some 7) "").2.1 (by rfl)⟩

/-- C6, counterexample: calling update with date, rating and memory all
unset returns silently; it does not raise `MissingArgumentError` as the
claim states. -/
theorem c6_counterexample :
    updateRun sampleStore none none none = (sampleStore, none) ∧
    (none : Option DqtErr) ≠ some .missingDate :=
  ⟨rfl, by simp⟩

/-- C6, amended: with date unset, the call is a silent no-op when neither
field is supplied and raises `MissingArgumentError` exactly when a field
is supplied; with date supplied and neither field given it behaves as any
update: `KeyNotFoundError` on an absent date, otherwise the mapping is
left unchanged (and persisted) with no error. -/
theorem c6_amended_theorem (st : StoreState) (r : Option (Option ℚ))
    (m : Option String) (d : String) :
    updateRun st none none none = (st, none) ∧
    (r.isSome = true ∨ m.isSome = true →
      updateRun st none r m = (st, some .missingDate)) ∧
    (st.logs.lookup d = none →
      updateRun st (some d) none none = (st, some (.keyNotFound d))) ∧
    ((st.logs.lookup d).isSome = true →
      (updateRun st (some d) none none).1.logs = st.logs ∧
      (updateRun st (some d) none none).2 = none) := by
  refine ⟨rfl, ?_, ?_, ?_⟩
  · rintro (h | h) <;> simp [updateRun, h]
  · intro hnone
    simp [updateRun, hnone]
  · intro hsome
    have hn : (st.logs.lookup d).isNone = false := by
      cases ho : st.logs.lookup d with
      | none => rw [ho] at hsome; exact Bool.noConfusion hsome
      | some e => rfl
    constructor
    · simp only [updateRun, hn, Bool.false_eq_true, if_false,
        Option.getD_none]
      exact map_entry_update_id d st.logs
    · simp [updateRun, hn]

/-- C6, witness on the sample store. -/
theorem c6_witness :
    updateRun sampleStore none (some (some 3)) none
      = (sampleStore, some .missingDate) ∧
    updateRun sampleStore (some "2024-01-03") none none
      = (sampleStore, some (.keyNotFound "2024-01-03")) ∧
    ((updateRun sampleStore (some "2024-01-01") none none).1.logs
      = sampleStore.logs ∧
     (updateRun sampleStore (some "2024-01-01") none none).2 = none) :=
  ⟨(c6_amended_theorem sampleStore (some (some 3)) none "x").2.1 (Or.inl rfl),
   (c6_amended_theorem sampleStore none none "2024-01-03").2.2.1 (by rfl),
   (c6_amended_theorem sampleStore none none "2024-01-01").2.2.2 (by rfl)⟩

/-- C7: any raw file contents that load successfully, once serialized
back and loaded again, reproduce the very same mapping, and the second
load performs no rewrite (normalization is idempotent across a dump/load
round trip). -/
theorem c7_theorem (a : Bool) (raw : List (String × RawVal))
    (v : List (String × Entry)) (w : List (List (String × Entry)))
    (hload : loadJsonNew a raw = .ok (v, w)) :
    loadJsonNew a (toRaw v) = .ok (v, []) := by
  unfold loadJsonNew at hload ⊢
  by_cases hraw : raw = []
  · rw [if_pos hraw] at hload
    simp only [Except.ok.injEq, Prod.mk.injEq] at hload
    obtain ⟨rfl, rfl⟩ := hload
    simp [toRaw]
  · rw [if_neg hraw] at hload
    cases hv : validateAndNormalizeLogs a raw with
    | error e =>
      rw [hv] at hload
      exact Except.noConfusion hload
    | ok p =>
      obtain ⟨v0, u0⟩ := p
      rw [hv] at hload
      simp only [Except.ok.injEq, Prod.mk.injEq] at hload
      obtain ⟨rfl, rfl⟩ := hload
      have hre : validateAndNormalizeLogs a (toRaw v0) = .ok (v0, false) :=
        normLoopNew_reload a raw none v0 u0 hv
      by_cases hv0 : toRaw v0 = []
      · have hnil : v0 = [] := by
          cases v0 with
          | nil => rfl
          | cons p t => simp [toRaw] at hv0
        subst hnil
        rw [if_pos hv0]
      · rw [if_neg hv0, hre]
        simp

/-- C7, witness: a file whose entry is missing its memory key loads with
a fix (one rewrite); reloading its serialization reproduces the mapping
with no further rewrite. -/
theorem c7_witness :
    loadJsonNew true (toRaw [("2024-01-01", (⟨some 5, ""⟩ : Entry))])
      = .ok ([("2024-01-01", ⟨some 5, ""⟩)], []) :=
  c7_theorem true [("2024-01-01", RawVal.obj (some (some 5)) none)]
    [("2024-01-01", ⟨some 5, ""⟩)] [[("2024-01-01", ⟨some 5, ""⟩)]] (by rfl)

/-- C8, counterexample: in the current engine (`dqt/json_manager.py`),
ranges are stored data, not recomputed.  After `set_value` changes
`max_rating` to 10, re-fetching `min_rating`'s ranges still returns the
stored list 1..19 rather than the claimed recomputed bound 1..9. -/
theorem c8_counterexample :
    getRangeWithKey (setValue sampleSettings "tracker" "max_rating" (.i 10))
        "tracker" "min_rating"
      = (registerRange 1 19 1).map SVal.i ∧
    (registerRange 1 19 1).map SVal.i ≠ (registerRange 1 9 1).map SVal.i := by
  refine ⟨by rfl, ?_⟩
  intro h
  have h19 : SVal.i 19 ∈ (registerRange 1 19 1).map SVal.i :=
    List.mem_map_of_mem _ ((mem_registerRange_one 1 19 19).mpr (by omega))
  rw [h] at h19
  obtain ⟨y, hy, hyeq⟩ := List.mem_map.mp h19
  have : y = 19 := by
    cases hyeq
    rfl
  subst this
  have := (mem_registerRange_one 1 9 19).mp hy
  omega

/-- C8, amended: the computed, dependent ranges live in the
`IterableSettings` engine (`dqt/iterable_settings.py`): on every
`load_current_config` the legal range of `min_rating` is exactly the
interval `1 .. max_rating - 1` and that of `max_rating` exactly
`min_rating .. 20`, and `replace_config_value('max_rating', X)` reloads
the config so that re-fetching `min_rating`'s range reflects the new
bound `X - 1`.  In the stored-range engine (`dqt/json_manager.py`),
`set_value` leaves all ranges untouched. -/
theorem c8_amended_theorem (c : TrackerConfig) (st : IterState) (X x : Int) :
    (loadCurrentConfig c).min_rating_range
      = registerRange 1 (c.max_rating - 1) 1 ∧
    (x ∈ (loadCurrentConfig c).min_rating_range
      ↔ 1 ≤ x ∧ x ≤ c.max_rating - 1) ∧
    (x ∈ (loadCurrentConfig c).max_rating_range
      ↔ c.min_rating ≤ x ∧ x ≤ 20) ∧
    (replaceConfigValue st "max_rating" X).min_rating_range
      = registerRange 1 (X - 1) 1 ∧
    (x ∈ (replaceConfigValue st "max_rating" X).min_rating_range
      ↔ 1 ≤ x ∧ x ≤ X - 1) := by
  refine ⟨rfl, mem_registerRange_one 1 (c.max_rating - 1) x,
    mem_registerRange_one c.min_rating 20 x, ?_, ?_⟩
  · simp [replaceConfigValue, loadCurrentConfig]
  · rw [show (replaceConfigValue st "max_rating" X).min_rating_range
        = registerRange 1 (X - 1) 1 by simp [replaceConfigValue, loadCurrentConfig]]
    exact mem_registerRange_one 1 (X - 1) x

/-- C9: evaluation of the backup process at the failure scenario.
Without the overwrite confirmation, the copy with `exist_ok=False` raises
`FileExistsError`, the destination keeps its old bytes and the loop
retries — as the claim states.  With the confirmation, the destination
becomes a byte-identical copy of the source, but the operation returns
success with `dst = None` instead of the resulting destination path: the
`dst` variable is never assigned on that path, contradicting the success
message that is printed from it. -/
theorem c9_bug_eval :
    createJsonCopy sampleFS "data/dq_logs.json" "backup.json" false
      = .error () ∧
    startFileBackupProcess sampleFS "data/dq_logs.json" "backup.json" false
      = (sampleFS, .retry) ∧
    startFileBackupProcess sampleFS "data/dq_logs.json" "backup.json" true
      = ([("data/dq_logs.json", "LOGS"), ("backup.json", "LOGS")],
         .success none) :=
  ⟨rfl, rfl, rfl⟩

/-- C10: adding an absent date always succeeds and persists the appended
mapping, with no chronological check: the date-order invariant is only
enforced by the load-time normalizer, so when the new date is not later
than the store's last key, the very file just written fails its next
load. -/
theorem c10_theorem (st : StoreState) (d : String) (r : Option ℚ)
    (m : String) (a : Bool) (v : List (String × Entry)) (u : Bool)
    (k : String) (pk pd : Date)
    (habsent : st.logs.lookup d = none) :
    addRun st d r m
      = (⟨st.logs ++ [(d, ⟨r, m⟩)], st.logs ++ [(d, ⟨r, m⟩)]⟩, none) ∧
    (validateAndNormalizeLogs a (toRaw st.logs) = .ok (v, u) →
     prevAfter none (toRaw st.logs) = some k →
     parseDate k = some pk → parseDate d = some pd →
     pd.ord ≤ pk.ord →
     ∃ e, validateAndNormalizeLogs a (toRaw (st.logs ++ [(d, ⟨r, m⟩)]))
        = .error e) := by
  constructor
  · have hne : (st.logs ++ [(d, (⟨r, m⟩ : Entry))]).isEmpty = false := by
      cases st.logs <;> rfl
    simp [addRun, habsent, dumpFile, hne]
  · intro hok hlast hpk hpd hle
    have hchk : ∃ e0, checkDates (some k) d = .error e0 := by
      by_cases hlt : pd.ord < pk.ord
      · exact ⟨.dateOlder d k, by simp [checkDates, hpk, hpd, hlt]⟩
      · have heq : pd.ord = pk.ord := by omega
        exact ⟨.dateRepeated k, by simp [checkDates, hpk, hpd, hlt, heq]⟩
    obtain ⟨e0, he0⟩ := hchk
    have herr : normLoopNew a (prevAfter none (toRaw st.logs))
        (toRaw [(d, ⟨r, m⟩)]) = .error e0 := by
      rw [hlast]
      simp [toRaw, normLoopNew, he0]
    have happ := normLoopNew_append_error a (toRaw st.logs) none v u
      (toRaw [(d, ⟨r, m⟩)]) e0 hok herr
    refine ⟨e0, ?_⟩
    unfold validateAndNormalizeLogs at happ ⊢
    rw [show toRaw (st.logs ++ [(d, ⟨r, m⟩)])
        = toRaw st.logs ++ toRaw [(d, ⟨r, m⟩)] by simp [toRaw]]
    exact happ

/-- C10, witness: adding "2024-01-01" to a store whose last entry is
"2024-01-02" succeeds and persists, and the written file fails the next
load. -/
theorem c10_witness :
    addRun ⟨[("2024-01-02", ⟨some 5, ""⟩)], [("2024-01-02", ⟨some 5, ""⟩)]⟩
        "2024-01-01" (some 3) "m"
      = (⟨[("2024-01-02", ⟨some 5, ""⟩)] ++ [("2024-01-01", ⟨some 3, "m"⟩)],
          [("2024-01-02", ⟨some 5, ""⟩)] ++ [("2024-01-01", ⟨some 3, "m"⟩)]⟩,
         none) ∧
    (∃ e, validateAndNormalizeLogs true
        (toRaw ([("2024-01-02", ⟨some 5, ""⟩)] ++ [("2024-01-01", ⟨some 3, "m"⟩)]))
      = .error e) :=
  have h := c10_theorem
    (⟨[("2024-01-02", ⟨some 5, ""⟩)], [("2024-01-02", ⟨some 5, ""⟩)]⟩ :
      StoreState)
    "2024-01-01" (some 3) "m" true [("2024-01-02", ⟨some 5, ""⟩)] false
    "2024-01-02" (⟨2024, 1, 2⟩ : Date) (⟨2024, 1, 1⟩ : Date) (by rfl)
  ⟨h.1, h.2 (by rfl) (by rfl) (by rfl) (by rfl) (by decide)⟩

end DQT
